import Mathlib

/-!
Verification development for the IST-66 / RDC-700 emulator core.

This file gives a shallow embedding, in Lean 4, of the parts of the emulator
that the specification's claims are about: the ALU primitive (src/alu.c and
src/include/alu.h), the memory and storage-key unit, the interrupt
controller, effective-address computation, and the instruction handlers of
the CPU execution engine (src/cpu.c, src/include/cpu.h).

Machine words are modelled as `Nat` with explicit reductions modulo powers
of two wherever the C code's fixed-width (`uint64_t`, `uint32_t`, `uint8_t`)
arithmetic wraps or truncates.  Fallible memory accesses are modelled with
an explicit error sum instead of the C sentinel encoding (`MEM_FAULT` =
bit 36, `KEY_FAULT` = bit 37); callers of `read_mem`/`write_mem` in the C
source always discriminate on exactly those sentinels before using the low
36 bits, so the sum type is a faithful rendering.  C `for`/`while` loops
with a statically bounded trip count are modelled by structural recursion
on an explicit iteration counter whose initial value matches (or safely
exceeds, for loops that stop early on an index guard) the C trip count.
-/

namespace Ist66

/-- MASK_36 from alu.h: low 36 bits of a word container. -/
def MASK_36 : Nat := 0xFFFFFFFFF

/-- MASK_37 from alu.h: low 36 bits plus the carry bit 36. -/
def MASK_37 : Nat := 0x1FFFFFFFFF

/-- MASK_ADDR from cpu.h: 27-bit address mask. -/
def MASK_ADDR : Nat := 0x7FFFFFF

/-- Modulus of the 64-bit container type `uint64_t`. -/
def B64 : Nat := 18446744073709551616

/-- Pointwise update of a function modelling a C array or memory. -/
def upd (f : Nat → Nat) (i v : Nat) : Nat → Nat :=
  fun j => if j = i then v else f j

/-- Wrapping `uint64_t` subtraction `a - b` (operands already below 2^64). -/
def sub64 (a b : Nat) : Nat := (a + (B64 - b % B64)) % B64

/-- EXT6 from alu.h, producing the `uint64_t` sign extension of a 6-bit field. -/
def ext6 (x : Nat) : Nat :=
  if x &&& 0x20 ≠ 0 then x ||| 0xFFFFFFFFFFFFFFC0 else x

/-- EXT18 from alu.h, producing the `uint64_t` sign extension of an 18-bit field. -/
def ext18 (x : Nat) : Nat :=
  if x &&& 0x20000 ≠ 0 then x ||| 0xFFFFFFFFFFFC0000 else x

/-- EXT7 from alu.h followed by the C cast to `int`, as a mathematical
integer: a 7-bit field is sign extended, so values with bit 6 set denote
`x - 128`. -/
def ext7i (x : Nat) : Int :=
  if x &&& 0x40 ≠ 0 then (x : Int) - 128 else (x : Int)

/-- EXT36 from alu.h followed by the C cast to `int64_t`, as a mathematical
integer: a 36-bit value with bit 35 set denotes `x - 2^36`. -/
def ext36i (x : Nat) : Int :=
  if x &&& 0x800000000 ≠ 0 then (x : Int) - 0x1000000000 else (x : Int)

/-- rotl36 from alu.c.  The C left shift is performed in `uint64_t`; the
bits it can push past bit 63 are in any case removed by the final
`& MASK_36`, so the explicit `% B64` matches the C truncation. -/
def rotl36 (a b : Nat) : Nat :=
  let b := if b > 35 then b - 36 else b
  (((a <<< b) % B64) ||| (a >>> (36 - b))) &&& MASK_36

/-- rotr36 from alu.c. -/
def rotr36 (a b : Nat) : Nat :=
  let b := if b > 35 then b - 36 else b
  ((a >>> b) ||| ((a <<< (36 - b)) % B64)) &&& MASK_36

/-- rotl37 from alu.c. -/
def rotl37 (a b : Nat) : Nat :=
  let b := if b > 36 then b - 37 else b
  (((a <<< b) % B64) ||| (a >>> (37 - b))) &&& MASK_37

/-- rotr37 from alu.c. -/
def rotr37 (a b : Nat) : Nat :=
  let b := if b > 36 then b - 37 else b
  ((a >>> b) ||| ((a <<< (37 - b)) % B64)) &&& MASK_37

/-- rotate from alu.c: 37-bit rotate through carry when `rc` is set,
otherwise a 36-bit rotate that preserves the carry bit 36. -/
def rotate (a : Nat) (b : Int) (rc : Nat) : Nat :=
  if rc ≠ 0 then
    if 0 ≤ b then rotl37 a b.toNat else rotr37 a (-b).toNat
  else
    let old_carry := a &&& 0x1000000000
    let a := a &&& MASK_36
    let result := if 0 ≤ b then rotl36 a b.toNat else rotr36 a (-b).toNat
    result ||| old_carry

/-- maskl from alu.c.  The C code builds the replacement region as the
`int64_t` arithmetic shift `(~MASK_36) >> b`; since `~MASK_36` is the
negative value `-(2^36)`, the shift yields `-(2^(36-b))` for `b ≤ 36` and
`-1` beyond, i.e. the `uint64_t` values below. -/
def maskl (a b : Nat) : Nat :=
  let mask_u : Nat := if b ≤ 36 then B64 - 2 ^ (36 - b) else B64 - 1
  (if a &&& 0x1000000000 ≠ 0 then a ||| mask_u
   else a &&& (B64 - 1 - mask_u)) &&& MASK_37

/-- maskr from alu.c.  The C code computes `(~1L) << s` with
`s = (b > 35 ? 36 : b)`; as a `uint64_t` that is `2^64 - 2^(s+1)`, which
has zero bits exactly at positions `0..s`. -/
def maskr (a b : Nat) : Nat :=
  let s := if b > 35 then 36 else b
  let mask_u : Nat := B64 - 2 ^ (s + 1)
  (if a &&& 0x1000000000 ≠ 0 then a ||| mask_u
   else a &&& (B64 - 1 - mask_u)) &&& MASK_37

/-- mask from alu.c: dispatch on the sign of the signed mask width. -/
def mask (a : Nat) (b : Int) : Nat :=
  (if 0 ≤ b then maskl a b.toNat else maskr a (-b).toNat) &&& MASK_37

/-- rotmask from alu.c. -/
def rotmask (a : Nat) (rc : Nat) (mk rt : Int) : Nat :=
  mask (rotate a rt rc) mk

/-- skip from alu.c: compute the bit-37 skip flag from the condition code. -/
def skip (a : Nat) (cond : Nat) : Nat :=
  let result : Nat :=
    match cond with
    | 1 => 1
    | 2 => if a &&& 0x1000000000 = 0 then 1 else 0
    | 3 => if a &&& 0x1000000000 ≠ 0 then 1 else 0
    | 4 => if a &&& MASK_36 = 0 then 1 else 0
    | 5 => if a &&& MASK_36 ≠ 0 then 1 else 0
    | 6 => if a &&& MASK_36 = 0 ∨ a &&& 0x1000000000 = 0 then 1 else 0
    | 7 => if a &&& MASK_36 ≠ 0 ∧ a &&& 0x1000000000 ≠ 0 then 1 else 0
    | _ => 0
  a ||| (result <<< 37)

/-- opr from alu.c.  Operands `a`, `b` and the carry are `uint64_t`
values; the reductions `% B64` reflect their container type, and the
complement `~x` is `2^64 - 1 - x`. -/
def opr (a b c : Nat) (op : Nat) : Nat :=
  let a := a % B64
  let b := b % B64
  let notc : Nat := if c = 0 then 1 else 0
  let rc : Nat × Nat :=
    match op with
    | 0 => ((B64 - 1 - a) &&& MASK_36, c)
    | 1 => (((B64 - 1 - a) + 1) &&& MASK_36, c)
    | 2 => (a &&& MASK_36, c)
    | 3 => ((a + 1) &&& MASK_36, if a = MASK_36 then notc else c)
    | 4 => (((B64 - 1 - a) + b) &&& MASK_36, if a < b then notc else c)
    | 5 => ((((B64 - 1 - a) + 1) + b) &&& MASK_36, if a ≤ b then notc else c)
    | 6 => ((a + b) &&& MASK_36, if MASK_36 < (a + b) % B64 then notc else c)
    | 7 => ((a &&& b) &&& MASK_36, c)
    | 10 => ((a ||| b) &&& MASK_36, c)
    | 15 => ((a ^^^ b) &&& MASK_36, c)
    | _ => (0, c)
  (rc.1 ||| (rc.2 <<< 36)) &&& MASK_37

/-- compute from alu.c: carry initialisation, arithmetic/logic, rotate,
mask, skip condition and no-load, in the order of the source.  The ADR
check on `mk` at the top of the C function is commented out in the source
and therefore absent here. -/
def compute (a b c : Nat) (op ci cond nl rc : Nat) (mk rt : Int) : Nat :=
  let c :=
    match ci with
    | 1 => 0
    | 2 => 1
    | 3 => if c = 0 then 1 else 0
    | _ => c
  let result := skip (rotmask (opr a b c op) rc mk rt) cond
  if nl ≠ 0 then b ||| (result &&& 0xFFFFFFF000000000) else result

/-- exec_aa from alu.h / cpu.c: decode the accumulator-to-accumulator
fields and delegate to `compute`.  The 6-bit mask and rotate fields pass
through EXT7 and a cast to `int`. -/
def exec_aa (inst : Nat) (a b c : Nat) : Nat :=
  let op := ((inst >>> 20) &&& 0x7) ||| ((inst >>> 29) &&& 0x8)
  let ci := (inst >>> 18) &&& 0x3
  let cond := (inst >>> 15) &&& 0x7
  let nl := (inst >>> 14) &&& 0x1
  let rc := (inst >>> 31) &&& 0x1
  let mk := ext7i ((inst >>> 7) &&& 0x3F)
  let rt := ext7i (inst &&& 0x3F)
  compute a b c op ci cond nl rc mk rt

/-- xmul from alu.h: signed 36x36 to 72-bit multiply via 18-bit halves,
returning (low word, high word). -/
def xmul (a b : Nat) : Nat × Nat :=
  let negate1 : Bool := a &&& 0x800000000 ≠ 0
  let a := if negate1 then ((B64 - 1 - a % B64) + 1) &&& MASK_36 else a
  let negate2 : Bool := b &&& 0x800000000 ≠ 0
  let b := if negate2 then ((B64 - 1 - b % B64) + 1) &&& MASK_36 else b
  let negate : Bool := xor negate1 negate2
  let ah := (a >>> 18) &&& 0o777777
  let al := a &&& 0o777777
  let bh := (b >>> 18) &&& 0o777777
  let bl := b &&& 0o777777
  let blal := bl * al
  let blah := bl * ah
  let bhal := bh * al
  let bhah := bh * ah
  let rl := blal + ((blah &&& 0o777777) <<< 18) + ((bhal &&& 0o777777) <<< 18)
  let rh := bhah + (blah >>> 18) + (bhal >>> 18)
  let rh := rh + (rl >>> 36)
  let rl := rl &&& MASK_36
  if negate then
    let rl := ((B64 - 1 - rl) + 1) &&& MASK_37
    let rh := (B64 - 1 - rh) &&& MASK_36
    let rh := rh + (rl >>> 36)
    let rl := rl &&& MASK_36
    (rl, rh)
  else
    (rl, rh)

/-- Memory access fault kinds.  The C source encodes these as the sentinel
words MEM_FAULT (bit 36) and KEY_FAULT (bit 37). -/
inductive Fault where
  | memF : Fault
  | keyF : Fault
deriving DecidableEq

/-- Emulated CPU state, from `struct ist66_cu` in cpu.h.  The register
files, memory and pending counters are modelled as total functions from
`Nat`; the C fixed-size arrays only ever use the in-range indices.  The
device table `io`/`ioctx` pair is modelled as `iotab`: an optional
transfer function per device number (`none` models a NULL entry), taking
the accumulator value, control and transfer fields.  Thread-related
fields (mutex, condition variable, thread handle) have no observable pure
content and are omitted; `running` is kept since the interrupt controller
and halt logic read and write it. -/
structure Cpu where
  a : Nat → Nat
  c : Nat → Nat
  stop_code : Nat
  xeq_inst : Nat
  inc_addr : Nat
  inc_data : Nat
  do_edit : Bool
  do_edsk : Bool
  do_inc : Bool
  memory : Nat → Nat
  mem_size : Nat
  iotab : Nat → Option (Nat → Nat → Nat → Nat)
  maxdev : Nat
  pending : Nat → Nat
  min_pending : Nat
  mask : Nat
  running : Bool

/-- get_pc from cpu.h. -/
def get_pc (cpu : Cpu) : Nat := cpu.c 0 &&& MASK_ADDR

/-- set_pc from cpu.h.  The `uint32_t` parameter truncation is absorbed by
the `& MASK_ADDR` since 2^27 divides 2^32. -/
def set_pc (cpu : Cpu) (v : Nat) : Cpu :=
  { cpu with c := upd cpu.c 0 ((cpu.c 0 &&& 0xFFFFFFFFF8000000) ||| (v &&& MASK_ADDR)) }

/-- get_cf from cpu.h: carry flag is bit 27 of the PSW. -/
def get_cf (cpu : Cpu) : Nat :=
  if cpu.c 0 &&& 0x8000000 ≠ 0 then 1 else 0

/-- set_cf from cpu.h. -/
def set_cf (cpu : Cpu) (state : Nat) : Cpu :=
  if state ≠ 0 then { cpu with c := upd cpu.c 0 (cpu.c 0 ||| 0x8000000) }
  else { cpu with c := upd cpu.c 0 (cpu.c 0 &&& 0xFFFFFFFFF7FFFFFF) }

/-- Storage key of the page containing `address`, from the expression
`(uint8_t) (cpu->memory[address & ~(0x1FF)] >> 36)` in cpu.c. -/
def page_key (cpu : Cpu) (address : Nat) : Nat :=
  (cpu.memory (address / 512 * 512) >>> 36) % 256

/-- read_mem from cpu.c.  The `uint8_t key` parameter truncates to 8 bits
and the `uint32_t address` parameter truncation is absorbed by the
`address &= MASK_ADDR` reduction (2^27 divides 2^32). -/
def read_mem (cpu : Cpu) (key address : Nat) : Except Fault Nat :=
  let key := key % 256
  let address := address &&& MASK_ADDR
  if cpu.mem_size ≤ address then .error .memF
  else if page_key cpu address = 0xFE then .ok (cpu.memory address &&& MASK_36)
  else if page_key cpu address = 0xFF then .ok (cpu.memory address &&& MASK_36)
  else if key ≠ 0 ∧ page_key cpu address ≠ key then .error .keyF
  else .ok (cpu.memory address &&& MASK_36)

/-- write_mem from cpu.c: on success the low 36 bits of the word are
replaced, keeping the tag bits 36..63 (`old_tag`). -/
def write_mem (cpu : Cpu) (key address data : Nat) : Except Fault Cpu :=
  let key := key % 256
  let address := address &&& MASK_ADDR
  let word := (cpu.memory address &&& 0xFFFFFFF000000000) ||| (data &&& MASK_36)
  let store : Cpu := { cpu with memory := upd cpu.memory address word }
  if cpu.mem_size ≤ address then .error .memF
  else if page_key cpu address = 0xFF then .ok store
  else if key ≠ 0 ∧ page_key cpu address ≠ key then .error .keyF
  else .ok store

/-- set_key from cpu.c: bounds-check the raw address (a `uint32_t`
parameter, hence the reduction), then store the 8-bit key in bits 36..43
of the first word of the page, keeping the low 36 data bits. -/
def set_key (cpu : Cpu) (key address : Nat) : Except Fault Cpu :=
  let address := address % 4294967296
  if cpu.mem_size ≤ address then .error .memF
  else
    let address := address / 512 * 512
    let word := ((key % 256) <<< 36) ||| (cpu.memory address &&& MASK_36)
    .ok { cpu with memory := upd cpu.memory address word }

/-- Scan loop shared by intr_release and intr_set_mask in cpu.c: starting
at `i`, advance while `i < 15` and level `i` is masked off or not
pending.  The C loop body runs at most 14 times because the index guard
stops it at 15; the structural counter `n` is started at 16 by both
callers and therefore never cuts the loop short. -/
def scan_min (p : Nat → Nat) (m : Nat) : Nat → Nat → Nat
  | 0, i => i
  | n + 1, i =>
    if i < 15 ∧ ((m >>> i) &&& 1 = 0 ∨ p i = 0) then scan_min p m n (i + 1)
    else i

/-- intr_assert from cpu.c (state change under the CPU lock). -/
def intr_assert (cpu : Cpu) (irq : Nat) : Cpu :=
  let p := upd cpu.pending irq (cpu.pending irq + 1)
  if irq < cpu.min_pending ∧ (cpu.mask >>> irq) &&& 1 ≠ 0 then
    { cpu with pending := p, min_pending := irq, running := true }
  else
    { cpu with pending := p }

/-- intr_release from cpu.c (state change under the CPU lock). -/
def intr_release (cpu : Cpu) (irq : Nat) : Cpu :=
  let p :=
    if 0 < cpu.pending irq then upd cpu.pending irq (cpu.pending irq - 1)
    else cpu.pending
  { cpu with pending := p, min_pending := scan_min p cpu.mask 16 cpu.min_pending }

/-- intr_set_mask from cpu.c (state change under the CPU lock).  The
`uint16_t` parameter truncates the mask to 16 bits. -/
def intr_set_mask (cpu : Cpu) (m : Nat) : Cpu :=
  let m := m % 65536
  { cpu with mask := m, min_pending := scan_min cpu.pending m 16 1 }

/-- do_intr from cpu.h: save PSW and CW to the slots of the current IRQ
level, then load the new CW (level, previous level, direct-page base from
the vector) and the new PSW from the vector, and clear the staged
execute/writeback state. -/
def do_intr (cpu : Cpu) (irq : Nat) : Cpu :=
  let cur := (cpu.c 1 >>> 32) &&& 0xF
  let mem := upd (upd cpu.memory (32 + 2 * cur) (cpu.c 0)) (33 + 2 * cur) (cpu.c 1)
  let cw := ((irq <<< 32) ||| (cur <<< 28)) ||| (mem (1 + 2 * irq) &&& 0x3FFFF)
  let psw := mem (2 * irq) &&& 0xFF7FFFFFF
  { cpu with
      memory := mem,
      c := upd (upd cpu.c 1 cw) 0 psw,
      do_inc := false,
      do_edit := false,
      do_edsk := false }

/-- do_except from cpu.h: vector through level 0 and store the 4-bit
cause in CW bits 24..27. -/
def do_except (cpu : Cpu) (exc : Nat) : Cpu :=
  let cpu := do_intr cpu 0
  { cpu with c := upd cpu.c 1 (cpu.c 1 ||| ((exc &&& 0xF) <<< 24)) }

/-- leave_intr from cpu.h: restore PSW and CW from the save slots indexed
by the previous-IRQ field of the current CW. -/
def leave_intr (cpu : Cpu) : Cpu :=
  let old := (cpu.c 1 >>> 28) &&& 0xF
  { cpu with c := upd (upd cpu.c 0 (cpu.memory (32 + 2 * old))) 1 (cpu.memory (33 + 2 * old)) }

/-- halt from cpu.h: stop running only when no strictly higher priority
unmasked IRQ is pending. -/
def halt (cpu : Cpu) : Cpu :=
  let current_irql := (cpu.c 1 >>> 32) &&& 0xF
  if current_irql ≤ cpu.min_pending then { cpu with running := false } else cpu

/-- Interrupt check at the top of each run-loop turn, from the lines of
`run` in cpu.c that compare `min_pending` with the current IRQ level and
vector when it is strictly smaller. -/
def run_intr_check (cpu : Cpu) : Cpu :=
  let current_irql := (cpu.c 1 >>> 32) &&& 0xF
  if cpu.min_pending < current_irql then do_intr cpu cpu.min_pending else cpu

/-- Index-register part of comp_mr from cpu.c: compute the raw effective
address and apply the auto-increment/decrement side effects of index
selectors 14 and 15.  All additions are `uint64_t` additions (the
displacement is the 64-bit sign extension of an 18-bit field), hence the
`% B64` reductions; the result is masked to 36 bits exactly as the
`ea_l &= MASK_36` after the C switch. -/
def comp_mr_base (cpu : Cpu) (inst : Nat) : Cpu × Nat :=
  let index := (inst >>> 18) &&& 0xF
  let disp := ext18 (inst &&& 0x3FFFF)
  let r : Cpu × Nat :=
    if index = 0 then (cpu, disp)
    else if index = 1 then
      (cpu, ((((cpu.c 1 &&& 0x3FFFF) <<< 9) % B64) + disp) % B64)
    else if index = 2 then
      (cpu, ((cpu.c 0 &&& MASK_ADDR) + disp) % B64)
    else if index = 14 then
      ({ cpu with a := upd cpu.a 13 ((cpu.a 13 + disp) % B64 &&& MASK_36) }, cpu.a 13)
    else if index = 15 then
      let sp := sub64 (cpu.a 13) disp &&& MASK_36
      ({ cpu with a := upd cpu.a 13 sp }, sp)
    else
      (cpu, (cpu.a index + disp) % B64)
  (r.1, r.2 &&& MASK_36)

/-- comp_mr from cpu.c: effective-address computation, including the
indirect word fetch and the staging of the increment/decrement indirect
writeback in `inc_addr`/`inc_data`/`do_inc`. -/
def comp_mr (cpu0 : Cpu) (inst : Nat) : Cpu × Except Fault Nat :=
  let base := comp_mr_base cpu0 inst
  let cpu := base.1
  let ea_l := base.2
  if (inst >>> 22) &&& 1 ≠ 0 then
    match read_mem cpu (cpu.c 0 >>> 28) (ea_l &&& MASK_ADDR) with
    | .error f => (cpu, .error f)
    | .ok new_ea =>
      if new_ea &&& 0x800000000 = 0 then (cpu, .ok new_ea)
      else
        let mode := (new_ea >>> 33) &&& 3
        let inc := ext6 ((new_ea >>> 27) &&& 63)
        let disp := new_ea &&& MASK_ADDR
        if mode = 0 then
          let data := ((disp + inc) % B64 &&& MASK_ADDR) ||| (new_ea &&& 0xFFFFFFFFF8000000)
          ({ cpu with do_inc := true, inc_addr := ea_l, inc_data := data }, .ok disp)
        else if mode = 1 then
          let data := (sub64 disp inc &&& MASK_ADDR) ||| (new_ea &&& 0xFFFFFFFFF8000000)
          ({ cpu with do_inc := true, inc_addr := ea_l, inc_data := data },
            .ok (sub64 disp inc &&& MASK_ADDR))
        else (cpu, .error .memF)
  else (cpu, .ok ea_l)

/-- exec_mr from cpu.c: JMP, JSR, ISZ, DSZ and the UMR trap. -/
def exec_mr (cpu0 : Cpu) (inst : Nat) : Cpu :=
  match comp_mr cpu0 inst with
  | (cpu, .error .memF) => do_except cpu 2
  | (cpu, .error .keyF) => do_except cpu 4
  | (cpu, .ok ea) =>
    match (inst >>> 23) &&& 0xF with
    | 0 => set_pc cpu ea
    | 1 =>
      let cpu := { cpu with a := upd cpu.a 12 ((get_pc cpu + 1) &&& MASK_ADDR) }
      set_pc cpu ea
    | 2 =>
      match read_mem cpu (cpu.c 0 >>> 28) ea with
      | .error .memF => do_except cpu 2
      | .error .keyF => do_except cpu 4
      | .ok data =>
        let result := compute (data &&& MASK_36) 1 0 6 0 4 0 0 0 0
        match write_mem cpu (cpu.c 0 >>> 28) ea result with
        | .error .memF => do_except cpu 2
        | .error .keyF => do_except cpu 5
        | .ok cpu =>
          if result &&& 0x2000000000 ≠ 0 then set_pc cpu (get_pc cpu + 2)
          else set_pc cpu (get_pc cpu + 1)
    | 3 =>
      match read_mem cpu (cpu.c 0 >>> 28) ea with
      | .error .memF => do_except cpu 2
      | .error .keyF => do_except cpu 4
      | .ok data =>
        let result := compute 1 (data &&& MASK_36) 0 5 0 4 0 0 0 0
        match write_mem cpu (cpu.c 0 >>> 28) ea result with
        | .error .memF => do_except cpu 2
        | .error .keyF => do_except cpu 5
        | .ok cpu =>
          if result &&& 0x2000000000 ≠ 0 then set_pc cpu (get_pc cpu + 2)
          else set_pc cpu (get_pc cpu + 1)
    | _ => do_except cpu 0

/-- exec_md from cpu.c: MPY, MPA, MNA, DIV and the UMR trap. -/
def exec_md (cpu0 : Cpu) (inst : Nat) : Cpu :=
  match comp_mr cpu0 inst with
  | (cpu, .error .memF) => do_except cpu 2
  | (cpu, .error .keyF) => do_except cpu 4
  | (cpu, .ok ea) =>
    match (inst >>> 23) &&& 0xF with
    | 0 =>
      match read_mem cpu (cpu.c 0 >>> 28) ea with
      | .error .memF => do_except cpu 2
      | .error .keyF => do_except cpu 4
      | .ok data =>
        let r := xmul (cpu.a 1) (data &&& MASK_36)
        let cpu := { cpu with a := upd (upd cpu.a 0 r.1) 2 r.2 }
        set_pc cpu (get_pc cpu + 1)
    | 1 =>
      match read_mem cpu (cpu.c 0 >>> 28) ea with
      | .error .memF => do_except cpu 2
      | .error .keyF => do_except cpu 4
      | .ok data =>
        let r := xmul (cpu.a 1) (data &&& MASK_36)
        let result_l := compute r.1 (cpu.a 0) 0 6 0 0 0 0 0 0
        let carry_l := result_l >>> 36
        let result_h := compute (r.2 + carry_l) (cpu.a 2) (get_cf cpu) 6 0 0 0 0 0 0
        let cpu := { cpu with a := upd (upd cpu.a 0 (result_l &&& MASK_36)) 2 (result_h &&& MASK_36) }
        let cpu := set_cf cpu ((result_h >>> 36) &&& 1)
        set_pc cpu (get_pc cpu + 1)
    | 2 =>
      match read_mem cpu (cpu.c 0 >>> 28) ea with
      | .error .memF => do_except cpu 2
      | .error .keyF => do_except cpu 4
      | .ok data =>
        let data := ((B64 - 1 - data) + 1) &&& MASK_36
        let r := xmul (cpu.a 1) data
        let result_l := compute r.1 (cpu.a 0) 0 6 0 0 0 0 0 0
        let carry_l := result_l >>> 36
        let result_h := compute (r.2 + carry_l) (cpu.a 2) (get_cf cpu) 6 0 0 0 0 0 0
        let cpu := { cpu with a := upd (upd cpu.a 0 (result_l &&& MASK_36)) 2 (result_h &&& MASK_36) }
        let cpu := set_cf cpu ((result_h >>> 36) &&& 1)
        set_pc cpu (get_pc cpu + 1)
    | 3 =>
      match read_mem cpu (cpu.c 0 >>> 28) ea with
      | .error .memF => do_except cpu 2
      | .error .keyF => do_except cpu 4
      | .ok data =>
        if data = 0 then do_except cpu 8
        else
          let data_s := ext36i (data &&& MASK_36)
          let ac_s := ext36i (cpu.a 0)
          let q := ((Int.tdiv ac_s data_s) % (68719476736 : Int)).toNat
          let r := ((Int.tmod ac_s data_s) % (68719476736 : Int)).toNat
          let cpu := { cpu with a := upd (upd cpu.a 1 q) 2 r }
          set_pc cpu (get_pc cpu + 1)
    | _ => do_except cpu 0

/-- exec_am from cpu.c: the accumulator/memory instructions 001..026
(EDT, ESK, MOVEA, ADDEA, ISE, DSE, MOVEAS, LDCOM, LDNEG, LDA, STA, ADCM,
SUBM, ADDM, ANDM, ORM, XORM) and the illegal-instruction trap. -/
def exec_am (cpu0 : Cpu) (inst : Nat) : Cpu :=
  match comp_mr cpu0 inst with
  | (cpu, .error .memF) => do_except cpu 2
  | (cpu, .error .keyF) => do_except cpu 4
  | (cpu, .ok ea) =>
    let ac := (inst >>> 23) &&& 0xF
    let key := cpu.c 0 >>> 28
    match (inst >>> 27) &&& 0x1FF with
    | 1 =>
      match read_mem cpu key ea with
      | .error .memF => do_except cpu 2
      | .error .keyF => do_except cpu 4
      | .ok data =>
        let result := compute (data &&& MASK_36) (cpu.a ac) (get_cf cpu) 10 0 0 0 0 0 0
        { cpu with do_edit := true, xeq_inst := result &&& MASK_36 }
    | 2 =>
      match read_mem cpu key ea with
      | .error .memF => do_except cpu 2
      | .error .keyF => do_except cpu 4
      | .ok data =>
        let result := compute (data &&& MASK_36) (cpu.a ac) (get_cf cpu) 10 0 0 0 0 0 0
        { cpu with do_edit := true, do_edsk := true, xeq_inst := result &&& MASK_36 }
    | 3 =>
      let cpu := { cpu with a := upd cpu.a ac ea }
      set_pc cpu (get_pc cpu + 1)
    | 4 =>
      let result := compute ea (cpu.a ac) (get_cf cpu) 6 0 0 0 0 0 0
      let cpu := set_cf { cpu with a := upd cpu.a ac (result &&& MASK_36) } ((result >>> 36) &&& 1)
      set_pc cpu (get_pc cpu + 1)
    | 5 =>
      let result := compute 1 (cpu.a ac) (get_cf cpu) 6 0 0 0 0 0 0
      let cpu := set_cf { cpu with a := upd cpu.a ac (result &&& MASK_36) } ((result >>> 36) &&& 1)
      match read_mem cpu key ea with
      | .error .memF => do_except cpu 2
      | .error .keyF => do_except cpu 4
      | .ok data =>
        if data &&& MASK_36 = cpu.a ac then set_pc cpu (get_pc cpu + 2)
        else set_pc cpu (get_pc cpu + 1)
    | 6 =>
      let result := compute 1 (cpu.a ac) (get_cf cpu) 5 0 0 0 0 0 0
      let cpu := set_cf { cpu with a := upd cpu.a ac (result &&& MASK_36) } ((result >>> 36) &&& 1)
      match read_mem cpu key ea with
      | .error .memF => do_except cpu 2
      | .error .keyF => do_except cpu 4
      | .ok data =>
        if data &&& MASK_36 = cpu.a ac then set_pc cpu (get_pc cpu + 2)
        else set_pc cpu (get_pc cpu + 1)
    | 7 =>
      let cpu := { cpu with a := upd cpu.a ac ((ea <<< 17) &&& MASK_36) }
      set_pc cpu (get_pc cpu + 1)
    | 8 =>
      match read_mem cpu key ea with
      | .error .memF => do_except cpu 2
      | .error .keyF => do_except cpu 4
      | .ok data =>
        let result := compute (data &&& MASK_36) 0 0 0 0 0 0 0 0 0
        let cpu := { cpu with a := upd cpu.a ac (result &&& MASK_36) }
        set_pc cpu (get_pc cpu + 1)
    | 9 =>
      match read_mem cpu key ea with
      | .error .memF => do_except cpu 2
      | .error .keyF => do_except cpu 4
      | .ok data =>
        let result := compute (data &&& MASK_36) 0 0 1 0 0 0 0 0 0
        let cpu := { cpu with a := upd cpu.a ac (result &&& MASK_36) }
        set_pc cpu (get_pc cpu + 1)
    | 10 =>
      match read_mem cpu key ea with
      | .error .memF => do_except cpu 2
      | .error .keyF => do_except cpu 4
      | .ok data =>
        let cpu := { cpu with a := upd cpu.a ac (data &&& MASK_36) }
        set_pc cpu (get_pc cpu + 1)
    | 11 =>
      match write_mem cpu key ea (cpu.a ac) with
      | .error .memF => do_except cpu 2
      | .error .keyF => do_except cpu 5
      | .ok cpu => set_pc cpu (get_pc cpu + 1)
    | 12 =>
      match read_mem cpu key ea with
      | .error .memF => do_except cpu 2
      | .error .keyF => do_except cpu 4
      | .ok data =>
        let result := compute (data &&& MASK_36) (cpu.a ac) (get_cf cpu) 4 0 0 0 0 0 0
        let cpu := set_cf { cpu with a := upd cpu.a ac (result &&& MASK_36) } ((result >>> 36) &&& 1)
        set_pc cpu (get_pc cpu + 1)
    | 13 =>
      match read_mem cpu key ea with
      | .error .memF => do_except cpu 2
      | .error .keyF => do_except cpu 4
      | .ok data =>
        let result := compute (data &&& MASK_36) (cpu.a ac) (get_cf cpu) 5 0 0 0 0 0 0
        let cpu := set_cf { cpu with a := upd cpu.a ac (result &&& MASK_36) } ((result >>> 36) &&& 1)
        set_pc cpu (get_pc cpu + 1)
    | 14 =>
      match read_mem cpu key ea with
      | .error .memF => do_except cpu 2
      | .error .keyF => do_except cpu 4
      | .ok data =>
        let result := compute (data &&& MASK_36) (cpu.a ac) (get_cf cpu) 6 0 0 0 0 0 0
        let cpu := set_cf { cpu with a := upd cpu.a ac (result &&& MASK_36) } ((result >>> 36) &&& 1)
        set_pc cpu (get_pc cpu + 1)
    | 15 =>
      match read_mem cpu key ea with
      | .error .memF => do_except cpu 2
      | .error .keyF => do_except cpu 4
      | .ok data =>
        let result := compute (data &&& MASK_36) (cpu.a ac) (get_cf cpu) 7 0 0 0 0 0 0
        let cpu := set_cf { cpu with a := upd cpu.a ac (result &&& MASK_36) } ((result >>> 36) &&& 1)
        set_pc cpu (get_pc cpu + 1)
    | 18 =>
      match read_mem cpu key ea with
      | .error .memF => do_except cpu 2
      | .error .keyF => do_except cpu 4
      | .ok data =>
        let result := compute (data &&& MASK_36) (cpu.a ac) (get_cf cpu) 10 0 0 0 0 0 0
        let cpu := set_cf { cpu with a := upd cpu.a ac (result &&& MASK_36) } ((result >>> 36) &&& 1)
        set_pc cpu (get_pc cpu + 1)
    | 22 =>
      match read_mem cpu key ea with
      | .error .memF => do_except cpu 2
      | .error .keyF => do_except cpu 4
      | .ok data =>
        let result := compute (data &&& MASK_36) (cpu.a ac) (get_cf cpu) 15 0 0 0 0 0 0
        let cpu := set_cf { cpu with a := upd cpu.a ac (result &&& MASK_36) } ((result >>> 36) &&& 1)
        set_pc cpu (get_pc cpu + 1)
    | _ => do_except cpu 1

/-- exec_smi from cpu.c: supervisor and miscellaneous instructions.  The
reads and writes in this handler pass requester key 0, which can never
produce a key fault; the C code accordingly tests only for MEM_FAULT, and
the key-fault match arms below reproduce what the C would do on that
unreachable path (it would fall through with the sentinel's low 36 bits,
which are zero, or with the write skipped). -/
def exec_smi (cpu0 : Cpu) (inst : Nat) : Cpu :=
  let key := (cpu0.c 0 >>> 28) &&& 0xFF
  if key ≠ 0 then do_except cpu0 6
  else
    match comp_mr cpu0 inst with
    | (cpu, .error .memF) => do_except cpu 2
    | (cpu, .error .keyF) => do_except cpu 2
    | (cpu, .ok ea) =>
      let ac := (inst >>> 23) &&& 0xF
      match (inst >>> 27) &&& 0x1FF with
      | 384 =>
        let cpu := halt cpu
        let cpu := { cpu with stop_code := cpu.a ac }
        set_pc cpu ea
      | 385 =>
        let cpu := set_pc cpu ea
        do_intr cpu ac
      | 386 =>
        match ac with
        | 0 => leave_intr cpu
        | 1 =>
          match read_mem cpu 0 ea with
          | .error .memF => do_except cpu 2
          | .error .keyF => leave_intr (intr_set_mask cpu 0)
          | .ok data => leave_intr (intr_set_mask cpu (data &&& MASK_36))
        | 2 =>
          match read_mem cpu 0 ea with
          | .error .memF => do_except cpu 2
          | .error .keyF => set_pc (intr_set_mask cpu 0) (get_pc (intr_set_mask cpu 0) + 1)
          | .ok data =>
            let cpu := intr_set_mask cpu (data &&& MASK_36)
            set_pc cpu (get_pc cpu + 1)
        | 3 =>
          match write_mem cpu 0 ea cpu.mask with
          | .error .memF => do_except cpu 2
          | .error .keyF => set_pc cpu (get_pc cpu + 1)
          | .ok cpu => set_pc cpu (get_pc cpu + 1)
        | _ => do_except cpu 1
      | 387 =>
        let ea := ea / 512 * 512
        let cpu :=
          if ea < cpu.mem_size then { cpu with a := upd cpu.a ac (cpu.memory ea >>> 36) }
          else do_except cpu 2
        set_pc cpu (get_pc cpu + 1)
      | 388 =>
        match set_key cpu (cpu.a ac) ea with
        | .error _ => do_except cpu 2
        | .ok cpu => set_pc cpu (get_pc cpu + 1)
      | 389 =>
        match read_mem cpu 0 ea with
        | .error .memF => do_except cpu 2
        | .error .keyF =>
          let cpu := { cpu with c := upd cpu.c ac 0 }
          set_pc cpu (get_pc cpu + 1)
        | .ok data =>
          let cpu := { cpu with c := upd cpu.c ac (data &&& MASK_36) }
          set_pc cpu (get_pc cpu + 1)
      | 390 =>
        match write_mem cpu 0 ea (cpu.c (ac &&& 0x7)) with
        | .error .memF => do_except cpu 2
        | .error .keyF => set_pc cpu (get_pc cpu + 1)
        | .ok cpu => set_pc cpu (get_pc cpu + 1)
      | _ => do_except cpu 1

/-- exec_io1 from cpu.c: supervisor check, device dispatch, and result
handling.  For even transfers below 14 the raw 64-bit device return value
is stored into the destination accumulator; transfer 14 is the Done/Busy
status skip. -/
def exec_io1 (cpu : Cpu) (inst : Nat) : Cpu :=
  let key := (cpu.c 0 >>> 28) &&& 0xFF
  if key ≠ 0 then do_except cpu 6
  else
    let device := inst &&& 0xFFF
    let ctl := (inst >>> 16) &&& 0x3
    let transfer := (inst >>> 12) &&& 0xF
    let ac := (inst >>> 23) &&& 0xF
    let data := cpu.a ac
    if device < cpu.maxdev then
      match cpu.iotab device with
      | some f =>
        let result := f data ctl transfer
        let cpu :=
          if transfer < 14 ∧ transfer &&& 1 = 0 then
            { cpu with a := upd cpu.a ac result }
          else if transfer = 14 then
            let cond : Bool :=
              match ctl with
              | 0 => result &&& 1 ≠ 0
              | 1 => result &&& 1 = 0
              | 2 => result &&& 2 ≠ 0
              | 3 => result &&& 2 = 0
              | _ => false
            if cond then set_pc cpu (get_pc cpu + 1) else cpu
          else cpu
        set_pc cpu (get_pc cpu + 1)
      | none => do_except cpu 3
    else do_except cpu 3

/-- Exception code for a faulting write, as raised by exec_call. -/
def wcode : Fault → Nat
  | .memF => 2
  | .keyF => 5

/-- Exception code for a faulting read, as raised by exec_call. -/
def rcode : Fault → Nat
  | .memF => 2
  | .keyF => 4

/-- Push loop of CLM in exec_call (cpu.c): for `i = 0..15`, when
`(mask << i) & 1` is non-zero, pre-decrement the temporary stack pointer
(a wrapping `uint64_t`) and push accumulator `15 - i`.  The counter `n`
is the number of remaining iterations, so `i = 16 - n`; the initial call
uses `n = 16`, matching the C trip count exactly.  On a write fault the
partially written state is returned together with the fault. -/
def clm_loop (key mk : Nat) : Nat → Nat → Cpu → Nat → Cpu × Nat × Option Fault
  | 0, _, cpu, sp => (cpu, sp, none)
  | n + 1, i, cpu, sp =>
    if (mk <<< i) &&& 1 ≠ 0 then
      let sp := sub64 sp 1
      match write_mem cpu key sp (cpu.a (15 - i)) with
      | .error f => (cpu, sp, some f)
      | .ok cpu => clm_loop key mk n (i + 1) cpu sp
    else clm_loop key mk n (i + 1) cpu sp

/-- CLM body of exec_call (cpu.c): fetch the mask, run the push loop,
push the mask and the return address, and only then commit the temporary
stack pointer to A13 and load the PC.  The second component is the
exception code when a memory access faulted. -/
def clm (cpu : Cpu) (ea : Nat) : Cpu × Option Nat :=
  let key := cpu.c 0 >>> 28
  match read_mem cpu key ea with
  | .error f => (cpu, some (rcode f))
  | .ok mk =>
    let mk := mk &&& MASK_36
    match clm_loop key mk 16 0 cpu (cpu.a 13) with
    | (cpu, _, some f) => (cpu, some (wcode f))
    | (cpu, sp, none) =>
      let sp1 := sub64 sp 1
      match write_mem cpu key sp1 mk with
      | .error f => (cpu, some (wcode f))
      | .ok cpu =>
        let sp2 := sub64 sp1 1
        match write_mem cpu key sp2 ((get_pc cpu + 1) &&& MASK_ADDR) with
        | .error f => (cpu, some (wcode f))
        | .ok cpu =>
          let cpu := { cpu with a := upd cpu.a 13 sp2 }
          (set_pc cpu (ea + 1), none)

/-- Pop loop of RTM in exec_call (cpu.c): for `i = 0..15`, when
`(mask << (15 - i)) & 1` is non-zero, pop into accumulator `i` with a
post-incremented stack pointer, recording whether A13 itself was
restored. -/
def rtm_loop (key mk : Nat) : Nat → Nat → Cpu → Nat → Bool → Cpu × Nat × Bool × Option Fault
  | 0, _, cpu, sp, restored => (cpu, sp, restored, none)
  | n + 1, i, cpu, sp, restored =>
    if (mk <<< (15 - i)) &&& 1 ≠ 0 then
      match read_mem cpu key sp with
      | .error f => (cpu, sp, restored, some f)
      | .ok v =>
        let cpu := { cpu with a := upd cpu.a i (v &&& MASK_36) }
        rtm_loop key mk n (i + 1) cpu ((sp + 1) % B64) (restored || i == 13)
    else rtm_loop key mk n (i + 1) cpu sp restored

/-- RTM body of exec_call (cpu.c): pop the return address and the mask,
run the pop loop, set the PC and, unless A13 was itself restored, commit
the temporary stack pointer to A13. -/
def rtm (cpu : Cpu) : Cpu × Option Nat :=
  let key := cpu.c 0 >>> 28
  let sp0 := cpu.a 13
  match read_mem cpu key sp0 with
  | .error f => (cpu, some (rcode f))
  | .ok ret =>
    match read_mem cpu key ((sp0 + 1) % B64) with
    | .error f => (cpu, some (rcode f))
    | .ok mk =>
      match rtm_loop key (mk &&& MASK_36) 16 0 cpu ((sp0 + 2) % B64) false with
      | (cpu, _, _, some f) => (cpu, some (rcode f))
      | (cpu, sp, restored, none) =>
        let cpu := set_pc cpu (ret &&& MASK_36)
        (if restored then cpu else { cpu with a := upd cpu.a 13 sp }, none)

/-- exec_call from cpu.c, split so that the faulting exits are visible:
the second component is `some code` exactly when the instruction was
aborted by `do_except` with that exception code. -/
def exec_call_aux (cpu0 : Cpu) (inst : Nat) : Cpu × Option Nat :=
  match comp_mr cpu0 inst with
  | (cpu, .error f) => (cpu, some (rcode f))
  | (cpu, .ok ea) =>
    match (inst >>> 23) &&& 0xF with
    | 0 => clm cpu ea
    | 1 => rtm cpu
    | _ => (cpu, some 0)

/-- exec_call from cpu.c: dispatch CLM/RTM and deliver any fault through
do_except. -/
def exec_call (cpu : Cpu) (inst : Nat) : Cpu :=
  match exec_call_aux cpu inst with
  | (cpu1, some code) => do_except cpu1 code
  | (cpu1, none) => cpu1

/-- exec_all from cpu.c: top-level instruction dispatch.  The octal
opcode bounds 027, 030, 0100, 0670 and 06 are 23, 24, 64, 440 and 6. -/
def exec_all (cpu : Cpu) (inst : Nat) : Cpu :=
  if inst >>> 33 = 0x7 then
    let acs := (inst >>> 27) &&& 0xF
    let acd := (inst >>> 23) &&& 0xF
    let result := exec_aa inst (cpu.a acs) (cpu.a acd) (get_cf cpu)
    let acd := if (inst >>> 11) &&& 0x7 = 0x4 then (inst >>> 7) &&& 0xF else acd
    let cpu := { cpu with a := upd cpu.a acd (result &&& MASK_36) }
    let cpu := set_cf cpu ((result >>> 36) &&& 1)
    if result &&& 0x2000000000 ≠ 0 then set_pc cpu (get_pc cpu + 2)
    else set_pc cpu (get_pc cpu + 1)
  else if inst >>> 27 = 0 then exec_mr cpu inst
  else if inst >>> 27 ≤ 23 then exec_am cpu inst
  else if inst >>> 27 = 24 then exec_md cpu inst
  else if inst >>> 27 = 64 then exec_call cpu inst
  else if inst >>> 27 = 440 then exec_io1 cpu inst
  else if inst >>> 33 = 6 then exec_smi cpu inst
  else do_except cpu 1

/-- Mask step as the specification words it: the current carry bit (bit
36 of the 37-bit intermediate value) replaces the `|mk|` most significant
bits of the 36-bit result when `mk` is positive, and the `|mk|` least
significant bits when `mk` is negative.  Only the 36-bit result is
returned. -/
def mask_spec (a : Nat) (mk : Int) : Nat :=
  let c := (a >>> 36) &&& 1
  let w := a &&& MASK_36
  if 0 ≤ mk then
    let n := mk.toNat
    w % 2 ^ (36 - n) + (if c = 1 then (2 ^ n - 1) * 2 ^ (36 - n) else 0)
  else
    let n := (-mk).toNat
    w / 2 ^ n * 2 ^ n + (if c = 1 then 2 ^ n - 1 else 0)

/-- Level `j` is asserted and unmasked for pending counters `p` and mask
`m`, as in the specification's description of `min_pending`. -/
def ReadyPM (p : Nat → Nat) (m : Nat) (j : Nat) : Prop :=
  0 < p j ∧ (m >>> j) &&& 1 = 1

/-- The `min_pending` invariant as the specification words it:
`min_pending` is the smallest index in [1..15] that is pending and
unmasked, and 15 when there is no such index. -/
def MinInv (cpu : Cpu) : Prop :=
  (1 ≤ cpu.min_pending ∧ cpu.min_pending ≤ 15) ∧
  (∀ j, 1 ≤ j → j < cpu.min_pending → ¬ ReadyPM cpu.pending cpu.mask j) ∧
  (cpu.min_pending = 15 ∨ ReadyPM cpu.pending cpu.mask cpu.min_pending)

/-- Base CPU state shared by the concrete scenarios: zeroed registers and
memory, 4096 words of memory, no devices, nothing pending. -/
def st0 : Cpu :=
  { a := fun _ => 0, c := fun _ => 0,
    stop_code := 0, xeq_inst := 0, inc_addr := 0, inc_data := 0,
    do_edit := false, do_edsk := false, do_inc := false,
    memory := fun _ => 0, mem_size := 0x1000, iotab := fun _ => none, maxdev := 0,
    pending := fun _ => 0, min_pending := 15, mask := 0xFFFF, running := true }

/-- State of the CLM/RTM round-trip scenario: A0..A15 = 0..15 except
A13 = 0x1000, PC = 0x100 with supervisor key, the save mask 0x000F at
address 0x200, and 8192 words of memory. -/
def stClm : Cpu :=
  { st0 with
      a := fun i => if i = 13 then 0x1000 else i,
      c := fun i => if i = 0 then 0x100 else 0,
      memory := fun ad => if ad = 0x200 then 0xF else 0,
      mem_size := 0x2000 }

/-- Instruction word CLM 0x200 (opcode octal 0100, function 0, no index,
displacement 0x200). -/
def instClm : Nat := (64 <<< 27) ||| 0x200

/-- Instruction word RTM (opcode octal 0100, function 1). -/
def instRtm : Nat := (64 <<< 27) ||| (1 <<< 23)

/-- C1: CLM does not push the accumulators selected by the save mask.
The push loop of exec_call tests `(mask << i) & 1`, which is non-zero
only at `i = 0` (and then selects A15), instead of testing bit `15 - i`
of the mask.  In the claim's scenario (A0..A15 = 0..15, A13 = 0x1000,
mem[0x200] = 0x000F, `CLM 0x200`) the code pushes A15 = 15, then the
mask, then PC+1, leaving A13 = 0x1000 - 3 = 0xFFD instead of the claimed
0x1000 - 6, and A3..A0 are never written to the stack; a subsequent RTM
pops PC, the mask and (because the pop loop has the mirrored bug) only
A15, which does restore A13 = 0x1000, PC = 0x101 and leaves A0..A3
untouched.  This contradicts the function's own documentation block
("For bits n = 35 to 20, push accumulator (n - 20) to stack"). -/
theorem clm_mask_scan_code_bug :
    (exec_call stClm instClm).a 13 = 0xFFD ∧
    (exec_call stClm instClm).a 13 ≠ 0xFFA ∧
    (exec_call stClm instClm).memory 0xFFF = 15 ∧
    (exec_call stClm instClm).memory 0xFFE = 0xF ∧
    (exec_call stClm instClm).memory 0xFFD = 0x101 ∧
    (exec_call stClm instClm).memory 0xFFC = 0 ∧
    (exec_call stClm instClm).memory 0xFFB = 0 ∧
    (exec_call stClm instClm).memory 0xFFA = 0 ∧
    get_pc (exec_call stClm instClm) = 0x201 ∧
    (exec_call (exec_call stClm instClm) instRtm).a 13 = 0x1000 ∧
    get_pc (exec_call (exec_call stClm instClm) instRtm) = 0x101 ∧
    (exec_call (exec_call stClm instClm) instRtm).a 3 = 3 := by
  decide

/-- C2: the mask step does not replace the `|mk|` least significant bits
for negative `mk`.  The replacement region built by maskr,
`(~1L) << |mk|`, has zero bits at positions 0..|mk|, so the code keeps
the low `|mk| + 1` bits and replaces all the bits above them with the
carry.  At the 37-bit intermediate value 0xFFFFFFFFF (carry clear) with
`mk = -1` the code returns 0x3 where the specified behaviour (also the
behaviour documented in the instruction comment of cpu.c, "it will
replace that many bits from the right") gives 0xFFFFFFFFE; with
`mk = -36`, which the claim says covers the whole word, the code is the
identity instead of clearing the word. -/
theorem alu_mask_negative_code_bug :
    Ist66.mask 0xFFFFFFFFF (-1) &&& MASK_36 = 0x3 ∧
    mask_spec 0xFFFFFFFFF (-1) = 0xFFFFFFFFE ∧
    Ist66.mask 0xFFFFFFFFF (-1) &&& MASK_36 ≠ mask_spec 0xFFFFFFFFF (-1) ∧
    Ist66.mask 0xFFFFFFFFF (-36) &&& MASK_36 = 0xFFFFFFFFF ∧
    mask_spec 0xFFFFFFFFF (-36) = 0 ∧
    Ist66.mask 0xFFFFFFFFF 1 &&& MASK_36 = mask_spec 0xFFFFFFFFF 1 ∧
    Ist66.mask 0x1800000000 4 &&& MASK_36 = mask_spec 0x1800000000 4 := by
  decide

/-- State of the interrupt-priority scenario: `pending[3] = 1`,
`pending[7] = 1`, `mask = 0xFFFF`, `current_irql = 5` (CW bits 32..35),
with the cached `min_pending = 3` demanded by the invariant. -/
def stIntr : Cpu :=
  { st0 with
      pending := fun j => if j = 3 ∨ j = 7 then 1 else 0,
      min_pending := 3,
      c := fun i => if i = 1 then (5 <<< 32) else 0 }

/-- C5 counterexample: setting the mask to 0xFF7F does not make
`min_pending` equal to 7.  0xFF7F has bit 7 clear and bit 3 set, so the
recomputation still selects level 3. -/
theorem intr_priority_mask_counterexample :
    (intr_set_mask stIntr 0xFF7F).min_pending = 3 ∧
    (intr_set_mask stIntr 0xFF7F).min_pending ≠ 7 ∧
    (0xFF7F : Nat) >>> 3 &&& 1 = 1 ∧
    (0xFF7F : Nat) >>> 7 &&& 1 = 0 := by
  decide

/-- C5 (amended): with pending[3] = pending[7] = 1, mask = 0xFFFF and
current_irql = 5, the controller recomputes `min_pending = 3` and the run
loop's boundary check vectors level 3; after `intr_set_mask(0xFFF7)`
(the mask value that actually clears bit 3) `min_pending` becomes 7. -/
theorem intr_priority_scenario_amended :
    (intr_set_mask stIntr 0xFFFF).min_pending = 3 ∧
    ((run_intr_check stIntr).c 1 >>> 32) &&& 0xF = 3 ∧
    ((run_intr_check stIntr).c 1 >>> 28) &&& 0xF = 5 ∧
    (intr_set_mask stIntr 0xFFF7).min_pending = 7 := by
  decide

/-- State of the ADR-encoding scenario: all accumulators and control
registers zero. -/
def stAdr : Cpu := st0

/-- AA instruction with opcode bits 1110, source A3, destination A0,
function 2 (result = source), carry-init 2 (set carry), mask field
1000001 (ADR pattern with alternate destination 1) and rotate 0. -/
def instAdr : Nat := 0xE18282080

/-- C8: the destination override of the ADR encoding is applied, but the
mask width is not forced equal to the rotate field — the ADR check at the
top of `compute` is commented out in alu.c, so `compute` uses the mask
field bits as a mask width.  In the concrete instruction the mask field
is 1000001 (ADR pattern, alternate destination A1) and the rotate field
is 0; the claim therefore requires A1 = result of a mask width 0
(identity), i.e. 0, but the code applies mask width +1, replacing the
top bit of the zero result with the carry that the instruction just set,
and stores 0x800000000 into A1.  The instruction comment in cpu.c
documents the claimed behaviour ("the bit mask width is set equal to the
rotate field"). -/
theorem adr_mask_width_code_bug :
    (instAdr >>> 11) &&& 0x7 = 0x4 ∧
    (instAdr >>> 7) &&& 0xF = 1 ∧
    ext7i (instAdr &&& 0x3F) = 0 ∧
    (exec_all stAdr instAdr).a 1 = 0x800000000 ∧
    compute 0 0 1 2 2 0 0 0 0 0 &&& MASK_36 = 0 ∧
    (exec_all stAdr instAdr).a 1 ≠ compute 0 0 1 2 2 0 0 0 0 0 &&& MASK_36 := by
  decide

/-- State of the I/O store scenario: device 5 present, whose transfer
function returns the 64-bit value `(uint64_t) -1` — exactly what the TTY
backend's `pop_char` path returns through `io` when its ring buffer is
empty. -/
def stIoDev : Cpu :=
  { st0 with
      iotab := fun d => if d = 5 then some (fun _ _ _ => 18446744073709551615) else none,
      maxdev := 8 }

/-- IO instruction (opcode octal 0670) with destination A0, control 0,
transfer 0 (read lower data), device 5. -/
def instIoDev : Nat := (440 <<< 27) ||| 5

/-- C9: the dispatcher does not keep accumulators within 36 bits on the
I/O path.  exec_io1 stores the device handler's raw 64-bit return value
into the destination accumulator for even transfers below 14, without
masking to 36 bits; with the in-tree TTY read path returning
`(uint64_t) -1` on an empty buffer, A0 ends up holding 2^64 - 1, whose
bits above bit 35 are set — contradicting the specification invariant
that every other accumulator store in cpu.c enforces with `& MASK_36`. -/
theorem io_accumulator_width_code_bug :
    (exec_all stIoDev instIoDev).a 0 = 18446744073709551615 ∧
    ¬ (exec_all stIoDev instIoDev).a 0 < 0x1000000000 ∧
    stIoDev.a 0 < 0x1000000000 := by
  decide

/-- Point lookup of an updated array at the written index. -/
theorem upd_same (f : Nat → Nat) (i v : Nat) : upd f i v i = v := by
  simp [upd]

/-- Point lookup of an updated array away from the written index. -/
theorem upd_ne (f : Nat → Nat) (i v j : Nat) (h : j ≠ i) : upd f i v j = f j := by
  simp [upd, h]

/-- Bitwise and distributes over logical right shift. -/
theorem and_shiftRight_distrib (a b k : Nat) : (a &&& b) >>> k = (a >>> k) &&& (b >>> k) := by
  apply Nat.eq_of_testBit_eq
  intro i
  simp [Nat.testBit_shiftRight, Nat.testBit_and]

/-- Bitwise or of a shifted value with a value below the shift amount is
plain addition. -/
theorem or_mul_pow_add (a : Nat) {b k : Nat} (hb : b < 2 ^ k) : (a * 2 ^ k) ||| b = a * 2 ^ k + b := by
  rw [Nat.mul_comm a (2 ^ k)]
  apply Nat.eq_of_testBit_eq
  intro i
  rw [Nat.testBit_or, Nat.testBit_mul_pow_two_add a hb i]
  have hshift : 2 ^ k * a = a <<< k := by rw [Nat.shiftLeft_eq, Nat.mul_comm]
  by_cases h : i < k
  · have ha : (2 ^ k * a).testBit i = false := by
      rw [hshift, Nat.testBit_shiftLeft]
      simp [Nat.not_le.2 h]
    simp [ha, h]
  · have hb2 : b.testBit i = false :=
      Nat.testBit_lt_two_pow (lt_of_lt_of_le hb (Nat.pow_le_pow_right (by norm_num) (Nat.not_lt.1 h)))
    have ha : (2 ^ k * a).testBit i = a.testBit (i - k) := by
      rw [hshift, Nat.testBit_shiftLeft]
      simp [Nat.not_lt.1 h]
    simp [ha, hb2, h]

/-- Vector state whose level-3 PSW template has only bit 27 set. -/
def stVec : Cpu := { st0 with memory := fun ad => if ad = 6 then 0x8000000 else 0 }

/-- C3 counterexample: the new PSW after vectoring level 3 is not the low
36 bits of memory[2·3].  The template word 0x8000000 (bit 27, the carry
flag position, set) is loaded as PSW 0, because do_intr masks the
template with 0xFF7FFFFFF rather than MASK_36. -/
theorem do_intr_psw_carry_counterexample :
    (do_intr stVec 3).c 0 = 0 ∧
    stVec.memory 6 &&& MASK_36 = 0x8000000 ∧
    (do_intr stVec 3).c 0 ≠ stVec.memory 6 &&& MASK_36 := by
  decide

/-- C3 (amended): on interrupt entry at level `irq` with current level
`cur`, the old PSW goes to memory[32+2·cur] and the old CW to
memory[33+2·cur]; the new CW carries `irq` in bits 32..35, `cur` in bits
28..31 and the low 18 bits of memory[1+2·irq]; and the new PSW is the low
36 bits of memory[2·irq] with the carry bit (bit 27) forced to zero. -/
theorem do_intr_vectoring_amended (cpu : Cpu) (irq : Nat) (hirq : irq ≤ 15) :
    (do_intr cpu irq).memory (32 + 2 * ((cpu.c 1 >>> 32) &&& 0xF)) = cpu.c 0 ∧
    (do_intr cpu irq).memory (33 + 2 * ((cpu.c 1 >>> 32) &&& 0xF)) = cpu.c 1 ∧
    ((do_intr cpu irq).c 1 >>> 32) &&& 0xF = irq ∧
    ((do_intr cpu irq).c 1 >>> 28) &&& 0xF = (cpu.c 1 >>> 32) &&& 0xF ∧
    (do_intr cpu irq).c 1 % 2 ^ 18 = cpu.memory (1 + 2 * irq) % 2 ^ 18 ∧
    (do_intr cpu irq).c 0 = (cpu.memory (2 * irq) &&& MASK_36) &&& 0xFF7FFFFFF ∧
    ((do_intr cpu irq).c 0 >>> 27) &&& 1 = 0 := by
  have hcur : (cpu.c 1 >>> 32) &&& 0xF ≤ 15 := Nat.and_le_right
  set cur := (cpu.c 1 >>> 32) &&& 0xF with hcurdef
  set mem2 := upd (upd cpu.memory (32 + 2 * cur) (cpu.c 0)) (33 + 2 * cur) (cpu.c 1) with hmem2
  have hm1 : mem2 (32 + 2 * cur) = cpu.c 0 := by
    rw [hmem2, upd_ne _ _ _ _ (by omega), upd_same]
  have hm2 : mem2 (33 + 2 * cur) = cpu.c 1 := by
    rw [hmem2, upd_same]
  have hm3 : mem2 (1 + 2 * irq) = cpu.memory (1 + 2 * irq) := by
    rw [hmem2, upd_ne _ _ _ _ (by omega), upd_ne _ _ _ _ (by omega)]
  have hm4 : mem2 (2 * irq) = cpu.memory (2 * irq) := by
    rw [hmem2, upd_ne _ _ _ _ (by omega), upd_ne _ _ _ _ (by omega)]
  have hdp : cpu.memory (1 + 2 * irq) &&& 0x3FFFF ≤ 0x3FFFF := Nat.and_le_right
  have hcw : ((irq <<< 32) ||| (cur <<< 28)) ||| (mem2 (1 + 2 * irq) &&& 0x3FFFF)
      = (irq * 16 + cur) * 2 ^ 28 + (cpu.memory (1 + 2 * irq) &&& 0x3FFFF) := by
    rw [hm3, Nat.shiftLeft_eq, Nat.shiftLeft_eq]
    rw [or_mul_pow_add irq (by omega : cur * 2 ^ 28 < 2 ^ 32)]
    rw [show irq * 2 ^ 32 + cur * 2 ^ 28 = (irq * 16 + cur) * 2 ^ 28 by ring]
    rw [or_mul_pow_add (irq * 16 + cur) (by omega : cpu.memory (1 + 2 * irq) &&& 0x3FFFF < 2 ^ 28)]
  have hcfield : (do_intr cpu irq).c
      = upd (upd cpu.c 1 (((irq <<< 32) ||| (cur <<< 28)) ||| (mem2 (1 + 2 * irq) &&& 0x3FFFF)))
          0 (mem2 (2 * irq) &&& 0xFF7FFFFFF) := rfl
  have hc1 : (do_intr cpu irq).c 1
      = (irq * 16 + cur) * 2 ^ 28 + (cpu.memory (1 + 2 * irq) &&& 0x3FFFF) := by
    rw [hcfield, upd_ne _ _ _ _ (by omega), upd_same, hcw]
  have hc0 : (do_intr cpu irq).c 0 = cpu.memory (2 * irq) &&& 0xFF7FFFFFF := by
    rw [hcfield, upd_same, hm4]
  refine ⟨hm1, hm2, ?_, ?_, ?_, ?_, ?_⟩
  · rw [hc1, Nat.shiftRight_eq_div_pow, show (0xF:Nat) = 2 ^ 4 - 1 by norm_num,
      Nat.and_pow_two_sub_one_eq_mod]
    omega
  · rw [hc1, Nat.shiftRight_eq_div_pow, show (0xF:Nat) = 2 ^ 4 - 1 by norm_num,
      Nat.and_pow_two_sub_one_eq_mod]
    omega
  · rw [hc1, show (0x3FFFF:Nat) = 2 ^ 18 - 1 by norm_num, Nat.and_pow_two_sub_one_eq_mod]
    omega
  · rw [hc0, Nat.and_assoc, show MASK_36 &&& 0xFF7FFFFFF = 0xFF7FFFFFF by decide]
  · rw [hc0, and_shiftRight_distrib, Nat.and_assoc,
      show (0xFF7FFFFFF:Nat) >>> 27 &&& 1 = 0 by decide, Nat.and_zero]

/-- Vector state used as a witness input for the amended C3 theorem:
current IRQ level 7, PSW 0x12345, a level-2 PSW template with carry bit
and key bits set, and a level-2 direct-page template. -/
def stVecW : Cpu :=
  { st0 with
      memory := fun ad => if ad = 4 then 0xAB8123456 else if ad = 5 then 0x2FFFF else 0,
      c := fun i => if i = 0 then 0x12345 else if i = 1 then (7 <<< 32) else 0 }

/-- Witness for the amended C3 theorem at level 2 from IRQ level 7. -/
theorem do_intr_vectoring_amended_witness :
    (do_intr stVecW 2).memory (32 + 2 * ((stVecW.c 1 >>> 32) &&& 0xF)) = stVecW.c 0 ∧
    ((do_intr stVecW 2).c 1 >>> 32) &&& 0xF = 2 ∧
    (do_intr stVecW 2).c 1 % 2 ^ 18 = stVecW.memory 5 % 2 ^ 18 ∧
    (do_intr stVecW 2).c 0 = (stVecW.memory 4 &&& MASK_36) &&& 0xFF7FFFFFF :=
  ⟨(do_intr_vectoring_amended stVecW 2 (by decide)).1,
   (do_intr_vectoring_amended stVecW 2 (by decide)).2.2.1,
   (do_intr_vectoring_amended stVecW 2 (by decide)).2.2.2.2.1,
   (do_intr_vectoring_amended stVecW 2 (by decide)).2.2.2.2.2.1⟩

/-- High 28 bits of a 64-bit word, selected by the C mask `~MASK_36`, as
a truncating division. -/
theorem and_high_mask (w : Nat) (hw : w < 2 ^ 64) :
    w &&& 0xFFFFFFF000000000 = w / 2 ^ 36 * 2 ^ 36 := by
  have hrhs : w / 2 ^ 36 * 2 ^ 36 = (w >>> 36) <<< 36 := by
    rw [Nat.shiftLeft_eq, Nat.shiftRight_eq_div_pow]
  rw [hrhs]
  apply Nat.eq_of_testBit_eq
  intro i
  rw [Nat.testBit_and, Nat.testBit_shiftLeft, Nat.testBit_shiftRight]
  rw [show (0xFFFFFFF000000000:Nat) = (2 ^ 28 - 1) <<< 36 by rw [Nat.shiftLeft_eq]; norm_num]
  rw [Nat.testBit_shiftLeft, Nat.testBit_two_pow_sub_one]
  by_cases h36 : 36 ≤ i
  · by_cases h64 : i < 64
    · simp [h36, show i - 36 < 28 by omega, show 36 + (i - 36) = i by omega]
    · have hz : w.testBit i = false :=
        Nat.testBit_lt_two_pow (lt_of_lt_of_le hw (Nat.pow_le_pow_right (by norm_num) (by omega)))
      have hz2 : w.testBit (36 + (i - 36)) = false := by
        rw [show 36 + (i - 36) = i by omega]
        exact hz
      simp [hz, hz2, h36]
  · simp [h36]

/-- Shape of the state produced by a successful write_mem. -/
theorem write_mem_ok_eq (cpu : Cpu) (key address data : Nat) (cpu' : Cpu)
    (h : write_mem cpu key address data = .ok cpu') :
    cpu' = { cpu with memory := upd cpu.memory (address &&& MASK_ADDR) ((cpu.memory (address &&& MASK_ADDR) &&& 0xFFFFFFF000000000) ||| (data &&& MASK_36)) } := by
  simp only [write_mem] at h
  split_ifs at h
  · exact (Except.ok.inj h).symm
  · exact (Except.ok.inj h).symm

/-- Shape of the state produced by a successful set_key. -/
theorem set_key_ok_eq (cpu : Cpu) (key address : Nat) (cpu' : Cpu)
    (h : set_key cpu key address = .ok cpu') :
    cpu' = { cpu with memory := upd cpu.memory (address % 4294967296 / 512 * 512) (((key % 256) <<< 36) ||| (cpu.memory (address % 4294967296 / 512 * 512) &&& MASK_36)) } := by
  simp only [set_key] at h
  split_ifs at h
  exact (Except.ok.inj h).symm

/-- C10: a successful write_mem modifies only the addressed word and only
its low 36 bits, keeping its storage-key lane (bits 36..63) and every
other word, register file and size field unchanged; a successful set_key
rewrites only the key lane of the first word of the addressed page,
keeping that word's low 36 data bits and every other word unchanged.
The address is quantified over the 27-bit address space of the data
model, and the addressed word over its 64-bit container. -/
theorem write_mem_set_key_frame (cpu : Cpu) (kw ks address data : Nat)
    (haddr : address < 2 ^ 27) (hword : cpu.memory address < 2 ^ 64) :
    (∀ cpu', write_mem cpu kw address data = .ok cpu' →
      cpu'.memory address % 2 ^ 36 = data % 2 ^ 36 ∧
      cpu'.memory address >>> 36 = cpu.memory address >>> 36 ∧
      (∀ ad, ad ≠ address → cpu'.memory ad = cpu.memory ad) ∧
      cpu'.a = cpu.a ∧ cpu'.c = cpu.c ∧ cpu'.mem_size = cpu.mem_size) ∧
    (∀ cpu', set_key cpu ks address = .ok cpu' →
      cpu'.memory (address / 512 * 512) % 2 ^ 36 = cpu.memory (address / 512 * 512) % 2 ^ 36 ∧
      cpu'.memory (address / 512 * 512) >>> 36 = ks % 256 ∧
      (∀ ad, ad ≠ address / 512 * 512 → cpu'.memory ad = cpu.memory ad) ∧
      cpu'.a = cpu.a ∧ cpu'.c = cpu.c ∧ cpu'.mem_size = cpu.mem_size) := by
  have hmask : address &&& MASK_ADDR = address := by
    rw [show MASK_ADDR = 2 ^ 27 - 1 by norm_num [MASK_ADDR], Nat.and_pow_two_sub_one_eq_mod]
    exact Nat.mod_eq_of_lt haddr
  constructor
  · intro cpu' h
    have he := write_mem_ok_eq cpu kw address data cpu' h
    rw [hmask] at he
    have hval : cpu'.memory address
        = cpu.memory address / 2 ^ 36 * 2 ^ 36 + data % 2 ^ 36 := by
      rw [he]
      show upd _ _ _ _ = _
      rw [upd_same, and_high_mask _ hword,
        show data &&& MASK_36 = data % 2 ^ 36 by
          rw [show MASK_36 = 2 ^ 36 - 1 by norm_num [MASK_36], Nat.and_pow_two_sub_one_eq_mod],
        or_mul_pow_add _ (Nat.mod_lt _ (by norm_num))]
    refine ⟨by omega, ?_, ?_, by rw [he], by rw [he], by rw [he]⟩
    · rw [hval, Nat.shiftRight_eq_div_pow, Nat.shiftRight_eq_div_pow]
      omega
    · intro ad had
      rw [he]
      show upd _ _ _ _ = _
      rw [upd_ne _ _ _ _ had]
  · intro cpu' h
    have he := set_key_ok_eq cpu ks address cpu' h
    rw [Nat.mod_eq_of_lt (show address < 4294967296 by omega)] at he
    have hval : cpu'.memory (address / 512 * 512)
        = (ks % 256) * 2 ^ 36 + cpu.memory (address / 512 * 512) % 2 ^ 36 := by
      rw [he]
      show upd _ _ _ _ = _
      rw [upd_same, Nat.shiftLeft_eq,
        show cpu.memory (address / 512 * 512) &&& MASK_36 = cpu.memory (address / 512 * 512) % 2 ^ 36 by
          rw [show MASK_36 = 2 ^ 36 - 1 by norm_num [MASK_36], Nat.and_pow_two_sub_one_eq_mod],
        or_mul_pow_add _ (Nat.mod_lt _ (by norm_num))]
    have hkey : ks % 256 < 2 ^ 28 := by omega
    refine ⟨by omega, ?_, ?_, by rw [he], by rw [he], by rw [he]⟩
    · rw [hval, Nat.shiftRight_eq_div_pow]
      omega
    · intro ad had
      rw [he]
      show upd _ _ _ _ = _
      rw [upd_ne _ _ _ _ had]

/-- Uniform memory holding 0x123 in every word, for the frame witness. -/
def stFrameW : Cpu := { st0 with memory := fun _ => 0x123 }

/-- Result of writing 0xABC at address 5 of `stFrameW`. -/
def stFrameW2 : Cpu := { stFrameW with memory := upd stFrameW.memory 5 0xABC }

/-- Result of setting key 0x42 on the page of address 5 of `stFrameW`. -/
def stFrameW3 : Cpu := { stFrameW with memory := upd stFrameW.memory 0 0x42000000123 }

/-- Witness for C10 with a successful write at address 5 and a successful
key store on that address's page. -/
theorem write_mem_set_key_frame_witness :
    stFrameW2.memory 5 % 2 ^ 36 = 0xABC % 2 ^ 36 ∧
    (∀ ad, ad ≠ 5 → stFrameW2.memory ad = stFrameW.memory ad) ∧
    stFrameW3.memory (5 / 512 * 512) >>> 36 = 0x42 % 256 ∧
    (∀ ad, ad ≠ 5 / 512 * 512 → stFrameW3.memory ad = stFrameW.memory ad) := by
  have h := write_mem_set_key_frame stFrameW 0 0x42 5 0xABC (by decide) (by decide)
  have h1 := h.1 stFrameW2 rfl
  have h2 := h.2 stFrameW3 rfl
  exact ⟨h1.1, h1.2.2.1, h2.2.1, h2.2.2.1⟩

end Ist66

deriving instance DecidableEq for Except

namespace Ist66

/-- One-word memory, so that every 27-bit address except 0 faults. -/
def stWrap : Cpu := { st0 with mem_size := 1 }

/-- C7 counterexample: read_mem does not return MEM_FAULT for every
address at or beyond mem_size.  The address 2^27 is reduced to its low 27
bits (0) before the bounds check, so with mem_size = 1 the read succeeds
and returns word 0 even though 2^27 ≥ mem_size. -/
theorem read_mem_address_wrap_counterexample :
    read_mem stWrap 0 0x8000000 = .ok 0 ∧
    stWrap.mem_size ≤ 0x8000000 ∧
    read_mem stWrap 0 0x8000000 ≠ Except.error Fault.memF := by
  decide

/-- C7 (amended): for every requester key and every address, read_mem
returns MEM_FAULT iff the low 27 bits of the address are at or beyond
mem_size; returns KEY_FAULT iff that in-bounds address has a page key
that differs from the non-zero 8-bit requester key and is neither 0xFE
nor 0xFF; and otherwise returns the stored word's low 36 bits. -/
theorem read_mem_fault_characterization (cpu : Cpu) (key address : Nat) :
    (read_mem cpu key address = .error .memF ↔ cpu.mem_size ≤ address % 2 ^ 27) ∧
    (read_mem cpu key address = .error .keyF ↔
      address % 2 ^ 27 < cpu.mem_size ∧ key % 256 ≠ 0 ∧
      page_key cpu (address % 2 ^ 27) ≠ key % 256 ∧
      page_key cpu (address % 2 ^ 27) ≠ 0xFE ∧ page_key cpu (address % 2 ^ 27) ≠ 0xFF) ∧
    (read_mem cpu key address = .ok (cpu.memory (address % 2 ^ 27) &&& MASK_36) ↔
      address % 2 ^ 27 < cpu.mem_size ∧
      ¬(key % 256 ≠ 0 ∧ page_key cpu (address % 2 ^ 27) ≠ key % 256 ∧
        page_key cpu (address % 2 ^ 27) ≠ 0xFE ∧ page_key cpu (address % 2 ^ 27) ≠ 0xFF)) := by
  have haddr : address &&& MASK_ADDR = address % 2 ^ 27 := by
    rw [show MASK_ADDR = 2 ^ 27 - 1 by norm_num [MASK_ADDR], Nat.and_pow_two_sub_one_eq_mod]
  simp only [read_mem, haddr]
  split_ifs with h1 h2 h3 h4 <;> refine ⟨?_, ?_, ?_⟩ <;> simp_all

/-- Correctness of the upward scan shared by intr_release and
intr_set_mask: starting at `i` with enough iterations left, the scan
stops at a level in [i, 15] that is ready (asserted and unmasked) unless
it reaches 15, and passes no ready level on the way. -/
theorem scan_min_spec (p : Nat → Nat) (m : Nat) :
    ∀ fuel i, 1 ≤ i → i ≤ 15 → 16 ≤ i + fuel →
      i ≤ scan_min p m fuel i ∧ scan_min p m fuel i ≤ 15 ∧
      (∀ j, i ≤ j → j < scan_min p m fuel i → ¬ ReadyPM p m j) ∧
      (scan_min p m fuel i = 15 ∨ ReadyPM p m (scan_min p m fuel i)) := by
  intro fuel
  induction fuel with
  | zero => intro i h1 h15 hf; omega
  | succ n ih =>
    intro i h1 h15 hf
    simp only [scan_min]
    by_cases hcond : i < 15 ∧ ((m >>> i) &&& 1 = 0 ∨ p i = 0)
    · rw [if_pos hcond]
      have hni : ¬ ReadyPM p m i := by
        rcases hcond.2 with hb | hp
        · rintro ⟨_, hbit⟩
          omega
        · rintro ⟨hp0, _⟩
          omega
      obtain ⟨ha, hb2, hc2, hd⟩ := ih (i + 1) (by omega) (by omega) (by omega)
      refine ⟨by omega, hb2, ?_, hd⟩
      intro j hj hjlt
      rcases Nat.eq_or_lt_of_le hj with rfl | hj2
      · exact hni
      · exact hc2 j (by omega) hjlt
    · rw [if_neg hcond]
      refine ⟨le_refl i, h15, by intro j hj hjlt; omega, ?_⟩
      by_cases h15' : i < 15
      · right
        have hb1 : (m >>> i) &&& 1 ≤ 1 := Nat.and_le_right
        have hno : ¬ ((m >>> i) &&& 1 = 0 ∨ p i = 0) := fun h => hcond ⟨h15', h⟩
        push_neg at hno
        exact ⟨by omega, by omega⟩
      · left
        omega

/-- Introduction rule for `MinInv` through explicit state components. -/
theorem MinInv_of (p : Nat → Nat) (m mp : Nat) (cpu : Cpu)
    (hp : cpu.pending = p) (hm : cpu.mask = m) (hmp : cpu.min_pending = mp)
    (h1 : 1 ≤ mp) (h2 : mp ≤ 15) (h3 : ∀ j, 1 ≤ j → j < mp → ¬ ReadyPM p m j)
    (h4 : mp = 15 ∨ ReadyPM p m mp) : MinInv cpu := by
  unfold MinInv
  rw [hp, hm, hmp]
  exact ⟨⟨h1, h2⟩, h3, h4⟩

/-- C4: from any state satisfying the `min_pending` invariant, each of
intr_assert (for device levels 1..14), intr_release (for any level) and
intr_set_mask (for any mask) yields a state in which `min_pending` is
again the smallest index in [1..15] that is pending and unmasked, and 15
when none is. -/
theorem min_pending_invariant_preservation (cpu : Cpu) (hinv : MinInv cpu) :
    (∀ irq, 1 ≤ irq → irq ≤ 14 → MinInv (intr_assert cpu irq)) ∧
    (∀ irq, MinInv (intr_release cpu irq)) ∧
    (∀ m, MinInv (intr_set_mask cpu m)) := by
  obtain ⟨⟨hlo, hhi⟩, hpre, hhit⟩ := hinv
  refine ⟨?_, ?_, ?_⟩
  · intro irq hirq1 hirq14
    simp only [intr_assert]
    set p' := upd cpu.pending irq (cpu.pending irq + 1) with hp'
    have hRother : ∀ j, j ≠ irq → (ReadyPM p' cpu.mask j ↔ ReadyPM cpu.pending cpu.mask j) := by
      intro j hj
      unfold ReadyPM
      rw [hp', upd_ne _ _ _ _ hj]
    have hRirq : (cpu.mask >>> irq) &&& 1 = 1 → ReadyPM p' cpu.mask irq := by
      intro hbit
      refine ⟨?_, hbit⟩
      rw [hp', upd_same]
      omega
    by_cases hc : irq < cpu.min_pending ∧ (cpu.mask >>> irq) &&& 1 ≠ 0
    · rw [if_pos hc]
      have hbl : (cpu.mask >>> irq) &&& 1 ≤ 1 := Nat.and_le_right
      have hbit : (cpu.mask >>> irq) &&& 1 = 1 := by omega
      refine MinInv_of p' cpu.mask irq _ rfl rfl rfl hirq1 (by omega) ?_ (Or.inr (hRirq hbit))
      intro j hj1 hjlt
      rw [hRother j (by omega)]
      exact hpre j hj1 (by omega)
    · rw [if_neg hc]
      refine MinInv_of p' cpu.mask cpu.min_pending _ rfl rfl rfl hlo hhi ?_ ?_
      · intro j hj1 hjlt
        by_cases hje : j = irq
        · subst hje
          rintro ⟨hR1, hR2⟩
          exact hc ⟨hjlt, by omega⟩
        · rw [hRother j hje]
          exact hpre j hj1 hjlt
      · rcases hhit with h15 | hR
        · exact Or.inl h15
        · right
          by_cases hje : cpu.min_pending = irq
          · rw [hje]
            exact hRirq (hje ▸ hR.2)
          · rw [hRother _ hje]
            exact hR
  · intro irq
    simp only [intr_release]
    set p' := (if 0 < cpu.pending irq then upd cpu.pending irq (cpu.pending irq - 1) else cpu.pending) with hp'
    have hmono : ∀ j, ReadyPM p' cpu.mask j → ReadyPM cpu.pending cpu.mask j := by
      intro j hR
      refine ⟨?_, hR.2⟩
      have hj := hR.1
      rw [hp'] at hj
      split_ifs at hj with hpos
      · by_cases hje : j = irq
        · subst hje
          rw [upd_same] at hj
          omega
        · rw [upd_ne _ _ _ _ hje] at hj
          omega
      · omega
    obtain ⟨ha, hb2, hc2, hd⟩ := scan_min_spec p' cpu.mask 16 cpu.min_pending hlo hhi (by omega)
    refine MinInv_of p' cpu.mask (scan_min p' cpu.mask 16 cpu.min_pending) _ rfl rfl rfl (by omega) hb2 ?_ hd
    intro j hj1 hjlt
    by_cases hjm : j < cpu.min_pending
    · intro hR
      exact hpre j hj1 hjm (hmono j hR)
    · exact hc2 j (by omega) hjlt
  · intro m
    simp only [intr_set_mask]
    obtain ⟨ha, hb2, hc2, hd⟩ := scan_min_spec cpu.pending (m % 65536) 16 1 (le_refl 1) (by omega) (by omega)
    exact MinInv_of cpu.pending (m % 65536) (scan_min cpu.pending (m % 65536) 16 1) _ rfl rfl rfl ha hb2 (fun j hj1 hjlt => hc2 j hj1 hjlt) hd

/-- Controller state with every level pending, full mask, and the cached
minimum 1, used as the witness input for C4. -/
def stMin : Cpu := { st0 with pending := fun _ => 1, mask := 0xFFFF, min_pending := 1 }

/-- Witness for C4: the invariant holds after an assert of level 3, a
release of level 2 and a mask load of 0xF0 from `stMin`. -/
theorem min_pending_invariant_preservation_witness :
    MinInv (intr_assert stMin 3) ∧ MinInv (intr_release stMin 2) ∧ MinInv (intr_set_mask stMin 0xF0) := by
  have hinv : MinInv stMin :=
    ⟨⟨by decide, by decide⟩,
     by intro j h1 h2; rw [show stMin.min_pending = 1 from rfl] at h2; omega,
     Or.inr ⟨by decide, by decide⟩⟩
  have h := min_pending_invariant_preservation stMin hinv
  exact ⟨h.1 3 (by decide) (by decide), h.2.1 2, h.2.2 0xF0⟩

/-- do_except rewrites only control registers, memory and flags. -/
theorem do_except_a (cpu : Cpu) (exc : Nat) : (do_except cpu exc).a = cpu.a := rfl

/-- The base effective-address computation leaves the accumulator file
unchanged for every index selector other than the auto-increment and
auto-decrement selectors 14 and 15. -/
theorem comp_mr_base_a (cpu : Cpu) (inst : Nat)
    (h14 : (inst >>> 18) &&& 0xF ≠ 14) (h15 : (inst >>> 18) &&& 0xF ≠ 15) :
    (comp_mr_base cpu inst).1.a = cpu.a := by
  simp only [comp_mr_base]
  split_ifs <;> rfl

/-- comp_mr leaves the accumulator file unchanged for every index
selector other than 14 and 15: the indirect fetch only stages the
deferred writeback. -/
theorem comp_mr_a (cpu : Cpu) (inst : Nat)
    (h14 : (inst >>> 18) &&& 0xF ≠ 14) (h15 : (inst >>> 18) &&& 0xF ≠ 15) :
    (comp_mr cpu inst).1.a = cpu.a := by
  have hb := comp_mr_base_a cpu inst h14 h15
  simp only [comp_mr]
  split_ifs with hind
  · cases hread : read_mem (comp_mr_base cpu inst).1 ((comp_mr_base cpu inst).1.c 0 >>> 28)
      ((comp_mr_base cpu inst).2 &&& MASK_ADDR) with
    | error f => simp only [hread]; exact hb
    | ok v =>
      simp only [hread]
      split_ifs with hv hm0 hm1
      · exact hb
      · exact hb
      · exact hb
      · exact hb
  · exact hb

/-- The CLM push loop never writes the accumulator file: all its state
changes go through write_mem. -/
theorem clm_loop_a (key mk : Nat) :
    ∀ fuel i cpu sp, (clm_loop key mk fuel i cpu sp).1.a = cpu.a := by
  intro fuel
  induction fuel with
  | zero => intro i cpu sp; rfl
  | succ n ih =>
    intro i cpu sp
    simp only [clm_loop]
    split_ifs with hbit
    · cases hw : write_mem cpu key (sub64 sp 1) (cpu.a (15 - i)) with
      | error f => simp only [hw]
      | ok cpu1 =>
        simp only [hw]
        rw [ih, write_mem_ok_eq cpu key (sub64 sp 1) (cpu.a (15 - i)) cpu1 hw]
    · exact ih (i + 1) cpu sp

/-- The RTM pop loop never writes A13: its bit test
`(mask << (15 - i)) & 1` is false at `i = 13` (indeed at every `i`
except 15), so the only accumulator it can load is not the stack
pointer. -/
theorem rtm_loop_a13 (key mk : Nat) :
    ∀ fuel i cpu sp restored, (rtm_loop key mk fuel i cpu sp restored).1.a 13 = cpu.a 13 := by
  intro fuel
  induction fuel with
  | zero => intro i cpu sp restored; rfl
  | succ n ih =>
    intro i cpu sp restored
    simp only [rtm_loop]
    split_ifs with hbit
    · cases hr : read_mem cpu key sp with
      | error f => simp only [hr]
      | ok v =>
        simp only [hr]
        rw [ih]
        by_cases hi : i = 13
        · exfalso
          apply hbit
          subst hi
          rw [Nat.shiftLeft_eq, Nat.and_one_is_mod]
          omega
        · exact upd_ne _ _ _ _ (Ne.symm hi)
    · exact ih (i + 1) cpu sp restored

/-- A CLM that ends in a fault leaves the whole accumulator file as it
was when the push sequence started: the temporary stack pointer is never
committed. -/
theorem clm_fault_a (cpu : Cpu) (ea code : Nat) (h : (clm cpu ea).2 = some code) :
    (clm cpu ea).1.a = cpu.a := by
  unfold clm at h ⊢
  cases hread : read_mem cpu (cpu.c 0 >>> 28) ea with
  | error f => simp only [hread]
  | ok mkv =>
    simp only [hread] at h ⊢
    have hla := clm_loop_a (cpu.c 0 >>> 28) (mkv &&& MASK_36) 16 0 cpu (cpu.a 13)
    rcases hloop : clm_loop (cpu.c 0 >>> 28) (mkv &&& MASK_36) 16 0 cpu (cpu.a 13) with ⟨cpu1, sp, of⟩
    rw [hloop] at hla h
    cases of with
    | some f => exact hla
    | none =>
      cases hw1 : write_mem cpu1 (cpu.c 0 >>> 28) (sub64 sp 1) (mkv &&& MASK_36) with
      | error f => simp only [hw1]; exact hla
      | ok cpu2 =>
        simp only [hw1] at h ⊢
        have ha2 : cpu2.a = cpu1.a := by
          rw [write_mem_ok_eq _ _ _ _ _ hw1]
        cases hw2 : write_mem cpu2 (cpu.c 0 >>> 28) (sub64 (sub64 sp 1) 1)
            ((get_pc cpu2 + 1) &&& MASK_ADDR) with
        | error f => simp only [hw2]; rw [ha2]; exact hla
        | ok cpu3 =>
          rw [hw2] at h
          exact Option.noConfusion h
  
/-- An RTM that ends in a fault leaves A13 as it was when the pop
sequence started: the temporary stack pointer is never committed. -/
theorem rtm_fault_a13 (cpu : Cpu) (code : Nat) (h : (rtm cpu).2 = some code) :
    (rtm cpu).1.a 13 = cpu.a 13 := by
  unfold rtm at h ⊢
  cases hr1 : read_mem cpu (cpu.c 0 >>> 28) (cpu.a 13) with
  | error f => simp only [hr1]
  | ok ret =>
    simp only [hr1] at h ⊢
    cases hr2 : read_mem cpu (cpu.c 0 >>> 28) ((cpu.a 13 + 1) % B64) with
    | error f => simp only [hr2]
    | ok mkv =>
      simp only [hr2] at h ⊢
      have hla := rtm_loop_a13 (cpu.c 0 >>> 28) (mkv &&& MASK_36) 16 0 cpu ((cpu.a 13 + 2) % B64) false
      rcases hloop : rtm_loop (cpu.c 0 >>> 28) (mkv &&& MASK_36) 16 0 cpu ((cpu.a 13 + 2) % B64) false
        with ⟨cpu1, sp, restored, of⟩
      rw [hloop] at hla h
      cases of with
      | some f => exact hla
      | none => exact Option.noConfusion h
/-- C6 (amended): for every CLM or RTM whose effective-address
computation does not use the auto-increment/decrement index selectors 14
or 15, any memory fault (in the effective-address indirection, the mask
fetch, a push or a pop) aborts the instruction with A13 holding exactly
the value it had before the instruction; the temporary stack pointer is
never committed, so the instruction can be retried. -/
theorem call_fault_rollback_amended (cpu : Cpu) (inst code : Nat)
    (h14 : (inst >>> 18) &&& 0xF ≠ 14) (h15 : (inst >>> 18) &&& 0xF ≠ 15)
    (hf : (inst >>> 23) &&& 0xF = 0 ∨ (inst >>> 23) &&& 0xF = 1)
    (hfault : (exec_call_aux cpu inst).2 = some code) :
    (exec_call cpu inst).a 13 = cpu.a 13 := by
  have key : (exec_call_aux cpu inst).1.a 13 = cpu.a 13 := by
    have hcma := comp_mr_a cpu inst h14 h15
    unfold exec_call_aux at hfault ⊢
    cases hcm : comp_mr cpu inst with
    | mk cpu1 r =>
      rw [hcm] at hcma hfault
      cases r with
      | error f => exact congrFun hcma 13
      | ok ea =>
        rcases hf with hf0 | hf1
        · rw [hf0] at hfault ⊢
          calc ((clm cpu1 ea).1.a) 13 = cpu1.a 13 := congrFun (clm_fault_a cpu1 ea code hfault) 13
            _ = cpu.a 13 := congrFun hcma 13
        · rw [hf1] at hfault ⊢
          calc ((rtm cpu1).1.a) 13 = cpu1.a 13 := rtm_fault_a13 cpu1 code hfault
            _ = cpu.a 13 := congrFun hcma 13
  unfold exec_call
  cases haux : exec_call_aux cpu inst with
  | mk c1 oc =>
    rw [haux] at hfault key
    have hoc : oc = some code := hfault
    subst hoc
    show (do_except c1 code).a 13 = cpu.a 13
    rw [congrFun (do_except_a c1 code) 13]
    exact key

/-- State for the C6 counterexample: A13 = 0x2000 with 4096 words of
memory, so a pre-decremented stack pointer lands outside memory. -/
def stPreDec : Cpu := { st0 with a := fun i => if i = 13 then 0x2000 else 0 }

/-- CLM with index selector 15 (pre-decrement A13) and displacement
0x800. -/
def instPreDec : Nat := (64 <<< 27) ||| (15 <<< 18) ||| 0x800

/-- C6 counterexample: a CLM whose mask fetch faults does not always
leave A13 with its pre-instruction value.  With index selector 15 the
effective-address computation itself decrements A13 from 0x2000 to
0x1800 before the mask fetch faults (0x1800 is beyond mem_size 0x1000),
and that side effect survives the abort, as the specification's own
error-handling section says auto-increment/decrement side effects do. -/
theorem clm_autodec_fault_counterexample :
    (exec_call_aux stPreDec instPreDec).2 = some 2 ∧
    (exec_call stPreDec instPreDec).a 13 = 0x1800 ∧
    stPreDec.a 13 = 0x2000 ∧
    (exec_call stPreDec instPreDec).a 13 ≠ stPreDec.a 13 := by
  decide

/-- State for the C6 witness: no memory at all, so the CLM mask fetch
faults immediately; A13 = 7. -/
def stCallW : Cpu := { st0 with mem_size := 0, a := fun i => if i = 13 then 7 else 0 }

/-- CLM with index selector 0 and displacement 0. -/
def instCallW : Nat := 64 <<< 27

/-- Witness for the amended C6 theorem: a faulting CLM with a plain
index selector leaves A13 = 7 untouched. -/
theorem call_fault_rollback_amended_witness :
    (exec_call stCallW instCallW).a 13 = stCallW.a 13 :=
  call_fault_rollback_amended stCallW instCallW 2 (by decide) (by decide)
    (Or.inl (by decide)) (by decide)

end Ist66
